import Mathlib

/-!
Shallow embedding of the Unified LLM Client core of the phlox repository
(`server/utils/llm_client/…`, `server/utils/model_probe.py`,
`server/utils/llm_client.py`), together with proofs settling the frozen
claims about its specification.

Strings are modelled as `List Char`; Python string scanning, `str.strip`,
the regular-expression passes of `repair_json`, and acceptance by
`json.loads` are translated into executable Lean functions.  Character
classes follow Python's ASCII semantics (the data the claims exercise is
ASCII).
-/

namespace Phlox

/-- Left brace character, written by code point to keep string literals plain. -/
def lbrace : Char := Char.ofNat 123

/-- Right brace character. -/
def rbrace : Char := Char.ofNat 125

/-- Backtick character (used by the markdown code-fence pass). -/
def btick : Char := Char.ofNat 96

/-- Whitespace recognised by Python's `json` module between tokens: space, tab,
newline, carriage return. -/
def isJsonWsC (c : Char) : Bool :=
  c = ' ' || c = '\t' || c = '\n' || c = '\r'

/-- Whitespace recognised by Python's `str.strip()` and by `\s` in `re`
(ASCII part): space, tab, newline, carriage return, vertical tab, form feed. -/
def isPyWsC (c : Char) : Bool :=
  c = ' ' || c = '\t' || c = '\n' || c = '\r' ||
  c = Char.ofNat 11 || c = Char.ofNat 12

/-- ASCII decimal digit. -/
def isDigC (c : Char) : Bool := '0' ≤ c && c ≤ '9'

/-- ASCII hexadecimal digit. -/
def isHexC (c : Char) : Bool :=
  isDigC c || ('a' ≤ c && c ≤ 'f') || ('A' ≤ c && c ≤ 'F')

/-- ASCII word character, as matched by `\w` / excluded by `\b` boundaries. -/
def isWordC (c : Char) : Bool :=
  isDigC c || ('a' ≤ c && c ≤ 'z') || ('A' ≤ c && c ≤ 'Z') || c = '_'

/-- ASCII lower-casing of a single character (model of `str.lower` on the
ASCII inputs the claims exercise). -/
def toLowerA (c : Char) : Char :=
  if 'A' ≤ c && c ≤ 'Z' then Char.ofNat (c.toNat + 32) else c

/-- Lower-case a character list. -/
def lowerL (l : List Char) : List Char := l.map toLowerA

/-- Every character is ASCII. -/
def allAscii (l : List Char) : Bool := l.all (fun c => c.toNat < 128)

/-- Model of Python `str.lstrip()` (ASCII whitespace). -/
def lstripPy (l : List Char) : List Char := l.dropWhile isPyWsC

/-- Model of Python `str.rstrip()` (ASCII whitespace). -/
def rstripPy (l : List Char) : List Char := (l.reverse.dropWhile isPyWsC).reverse

/-- Model of Python `str.strip()` (ASCII whitespace). -/
def pyStrip (l : List Char) : List Char := rstripPy (lstripPy l)

/-- Does `pat` occur at the head of `l`? -/
def startsL : List Char → List Char → Bool
  | [], _ => true
  | _ :: _, [] => false
  | p :: ps, c :: cs => p = c && startsL ps cs

/-- Does `pat` (given lower-case) occur at the head of `l`, matching
case-insensitively? -/
def startsCI (pat l : List Char) : Bool := startsL pat (lowerL (l.take pat.length))

/-- Does `pat` occur anywhere in `l` as a contiguous substring? -/
def hasSubL (pat : List Char) : List Char → Bool
  | [] => startsL pat []
  | l@(_ :: r) => startsL pat l || hasSubL pat r

/-- Skip JSON inter-token whitespace. -/
def skipJWs (l : List Char) : List Char := l.dropWhile isJsonWsC

/-- Acceptance of the remainder of a JSON string literal (after the opening
quote), as in Python's `json` strict scanner: raw control characters below
`0x20` are rejected, escapes are `\" \\ \/ \b \f \n \r \t \uXXXX`. Returns
the rest of the input after the closing quote. -/
def jstrRest : List Char → Option (List Char)
  | [] => none
  | c :: r =>
    if c = '"' then some r
    else if c = '\\' then
      match r with
      | [] => none
      | e :: r2 =>
        if e = 'u' then
          match r2 with
          | a :: b :: c2 :: d :: r3 =>
            if isHexC a && isHexC b && isHexC c2 && isHexC d then jstrRest r3
            else none
          | _ => none
        else if e = '"' || e = '\\' || e = '/' || e = 'b' || e = 'f' ||
                e = 'n' || e = 'r' || e = 't' then jstrRest r2
        else none
    else if 0x20 ≤ c.toNat then jstrRest r else none

/-- Integer part of a JSON number: `0` or a nonzero digit followed by digits. -/
def jintPart : List Char → Option (List Char)
  | [] => none
  | c :: r =>
    if c = '0' then some r
    else if isDigC c then some (r.dropWhile isDigC)
    else none

/-- Optional fraction part `\.\d+`; consumes nothing when absent or malformed
(mirroring the partial-match semantics of `json`'s `NUMBER_RE`). -/
def jfracPart (l : List Char) : List Char :=
  match l with
  | '.' :: c :: r => if isDigC c then r.dropWhile isDigC else l
  | _ => l

/-- Optional exponent part `[eE][-+]?\d+`; consumes nothing when absent or
malformed. -/
def jexpPart (l : List Char) : List Char :=
  match l with
  | [] => []
  | e :: r =>
    if e = 'e' || e = 'E' then
      let r1 := match r with
                | s :: r2 => if s = '+' || s = '-' then r2 else r
                | [] => r
      match r1 with
      | c :: r3 => if isDigC c then r3.dropWhile isDigC else l
      | [] => l
    else l

/-- Acceptance of a JSON number starting at the head of the input (the
leading `-`, if any, has not been consumed). -/
def jnumRest (l : List Char) : Option (List Char) :=
  let body := match l with
              | '-' :: r => jintPart r
              | _ => jintPart l
  body.map (fun r => jexpPart (jfracPart r))

mutual

/-- Acceptance of one JSON value at the head of the input (no leading
whitespace), following Python's scanner: strings, objects, arrays, the
literals `true`/`false`/`null`, the constants `NaN`/`Infinity`/`-Infinity`,
then numbers. -/
def parseVal : Nat → List Char → Option (List Char)
  | 0, _ => none
  | f+1, l =>
    match l with
    | [] => none
    | c :: r =>
      if c = '"' then jstrRest r
      else if c = lbrace then parseObj f (skipJWs r) true
      else if c = '[' then parseArr f (skipJWs r) true
      else if startsL "true".data l then some (l.drop 4)
      else if startsL "false".data l then some (l.drop 5)
      else if startsL "null".data l then some (l.drop 4)
      else if startsL "NaN".data l then some (l.drop 3)
      else if startsL "Infinity".data l then some (l.drop 8)
      else if startsL "-Infinity".data l then some (l.drop 9)
      else jnumRest l

/-- Members of a JSON object after `{` and whitespace; `first` is true before
any member has been read (only then may `}` close immediately). -/
def parseObj : Nat → List Char → Bool → Option (List Char)
  | 0, _, _ => none
  | f+1, l, first =>
    match l with
    | [] => none
    | c :: r =>
      if c = rbrace && first then some r
      else if c = '"' then
        match jstrRest r with
        | none => none
        | some r2 =>
          match skipJWs r2 with
          | ':' :: r4 =>
            match parseVal f (skipJWs r4) with
            | none => none
            | some r5 =>
              match skipJWs r5 with
              | c2 :: r7 =>
                if c2 = rbrace then some r7
                else if c2 = ',' then parseObj f (skipJWs r7) false
                else none
              | [] => none
          | _ => none
      else none

/-- Items of a JSON array after `[` and whitespace. -/
def parseArr : Nat → List Char → Bool → Option (List Char)
  | 0, _, _ => none
  | f+1, l, first =>
    match l with
    | [] => none
    | c :: _ =>
      if c = ']' && first then some (l.drop 1)
      else
        match parseVal f l with
        | none => none
        | some r2 =>
          match skipJWs r2 with
          | c2 :: r4 =>
            if c2 = ']' then some r4
            else if c2 = ',' then parseArr f (skipJWs r4) false
            else none
          | [] => none

end

/-- Acceptance by Python's `json.loads`: optional surrounding whitespace
around exactly one JSON value. -/
def jsonOkL (l : List Char) : Bool :=
  match parseVal (2 * l.length + 4) (skipJWs l) with
  | some r => (skipJWs r).isEmpty
  | none => false

/-- Acceptance by `json.loads`, on `String`. -/
def jsonOk (s : String) : Bool := jsonOkL s.data

/-! ## The control-character escaping pass
(`_escape_control_chars_in_json_strings` in `server/utils/llm_client/utils.py`) -/

/-- Scan for the closing quote of a string literal, skipping backslash-escaped
pairs; returns the raw content between the quotes and the rest after the
closing quote, or `none` when the string is unclosed (mirroring the inner
`while` loop of the Python function). -/
def findClose : List Char → Option (List Char × List Char)
  | [] => none
  | c :: rest =>
    if c = '\\' then
      match rest with
      | [] => none
      | e :: rest2 => (findClose rest2).map (fun p => (c :: e :: p.1, p.2))
    else if c = '"' then some ([], rest)
    else (findClose rest).map (fun p => (c :: p.1, p.2))

/-- Per-character effect of the sequential `str.replace` calls of the Python
function: double every backslash, then escape newline, carriage return, tab. -/
def escChar (c : Char) : List Char :=
  if c = '\\' then ['\\', '\\']
  else if c = '\n' then ['\\', 'n']
  else if c = '\r' then ['\\', 'r']
  else if c = '\t' then ['\\', 't']
  else [c]

/-- Apply `escChar` across the content of one string literal. -/
def escContent : List Char → List Char
  | [] => []
  | c :: r => escChar c ++ escContent r

/-- Fueled outer loop of `_escape_control_chars_in_json_strings`: copy
characters; on a quote, locate the closing quote and rewrite the enclosed
content, or copy the rest verbatim when the string is unclosed. -/
def escapeGo : Nat → List Char → List Char
  | 0, l => l
  | _+1, [] => []
  | f+1, c :: r =>
    if c = '"' then
      match findClose r with
      | some (content, rest2) => '"' :: (escContent content ++ '"' :: escapeGo f rest2)
      | none => c :: r
    else c :: escapeGo f r

/-- Model of `_escape_control_chars_in_json_strings`. -/
def escape_control_chars (l : List Char) : List Char := escapeGo (l.length + 1) l

/-! ## The think-tag stripping pass
(`re.sub(r"<think\b[^>]*>.*?</think>", "", s, flags=I|S)` in `repair_json`) -/

/-- Index of the first `>` in the list (the `[^>]*>` part of the pattern). -/
def idxOfGt : List Char → Option Nat
  | [] => none
  | c :: r => if c = '>' then some 0 else (idxOfGt r).map (· + 1)

/-- First index at which `pat` (given lower-case) matches case-insensitively. -/
def findCI (pat : List Char) : List Char → Option Nat
  | [] => if startsCI pat [] then some 0 else none
  | l@(_ :: r) => if startsCI pat l then some 0 else (findCI pat r).map (· + 1)

/-- Length of a match of `<think\b[^>]*>.*?</think>` (case-insensitive,
dot-matches-newline, non-greedy) anchored at the head of `l`, or `none`. -/
def thinkMatchLen (l : List Char) : Option Nat :=
  if startsCI "<think".data l then
    let rest := l.drop 6
    let boundary := match rest with
                    | c :: _ => !isWordC c
                    | [] => false
    if boundary then
      match idxOfGt rest with
      | none => none
      | some p =>
        match findCI "</think>".data (rest.drop (p + 1)) with
        | none => none
        | some q => some (6 + (p + 1) + q + 8)
    else none
  else none

/-- Fueled left-to-right scan removing every non-overlapping match, as
`re.sub` does. -/
def stripThinkGo : Nat → List Char → List Char
  | 0, l => l
  | _+1, [] => []
  | f+1, c :: r =>
    match thinkMatchLen (c :: r) with
    | some n => stripThinkGo f ((c :: r).drop n)
    | none => c :: stripThinkGo f r

/-- Model of the think-tag removal substitution. -/
def stripThink (l : List Char) : List Char := stripThinkGo (l.length + 1) l

/-! ## The markdown code-fence pass (`CODE_FENCE_RE.search`) -/

/-- Index of the first newline. -/
def idxOfNl : List Char → Option Nat
  | [] => none
  | c :: r => if c = '\n' then some 0 else (idxOfNl r).map (· + 1)

/-- Collect the (non-greedy) fence body up to the earliest `"\n```"`. -/
def fenceCloseScan : Nat → List Char → Option (List Char)
  | 0, _ => none
  | _+1, [] => none
  | f+1, c :: r =>
    if c = '\n' && startsL [btick, btick, btick] r then some []
    else (fenceCloseScan f r).map (c :: ·)

/-- Attempt a fence match anchored at the head: three backticks, the rest of
the opening line, a newline, then the body up to the earliest `"\n```"`. -/
def fenceTryAt (l : List Char) : Option (List Char) :=
  if startsL [btick, btick, btick] l then
    let afterTicks := l.drop 3
    match idxOfNl afterTicks with
    | none => none
    | some p =>
      let afterOpen := afterTicks.drop (p + 1)
      fenceCloseScan (afterOpen.length + 1) afterOpen
  else none

/-- Leftmost fence match anywhere in the input (`re.search`), returning the
`body` group. -/
def fenceSearchGo : Nat → List Char → Option (List Char)
  | 0, _ => none
  | f+1, l =>
    match fenceTryAt l with
    | some body => some body
    | none =>
      match l with
      | [] => none
      | _ :: r => fenceSearchGo f r

/-- Model of `CODE_FENCE_RE.search`, yielding the body group. -/
def fenceSearch (l : List Char) : Option (List Char) :=
  fenceSearchGo (l.length + 1) l

/-! ## The doubled-brace passes -/

/-- Model of `re.match(r"^\s*\{\s*\{", s)`: after optional whitespace an open
brace, then optional whitespace and a second open brace. -/
def startsDoubleOpen (l : List Char) : Bool :=
  match lstripPy l with
  | c :: r => c = lbrace && (match lstripPy r with
                             | c2 :: _ => c2 = lbrace
                             | [] => false)
  | [] => false

/-- Does the input end with a close brace followed only by whitespace? -/
def endsBraceWs (l : List Char) : Bool :=
  match l.reverse.dropWhile isPyWsC with
  | c :: _ => c = rbrace
  | [] => false

/-- Model of `re.sub(r"\}\s*$", "", s, count=1)`: remove the final close
brace and the whitespace after it, when present. -/
def dropLastBraceWs (l : List Char) : List Char :=
  match l.reverse.dropWhile isPyWsC with
  | c :: rest => if c = rbrace then rest.reverse else l
  | [] => l

/-- Model of `re.search(r"\}\s*\}\s*$", s)`. -/
def endsDoubleClose (l : List Char) : Bool :=
  endsBraceWs l && endsBraceWs (dropLastBraceWs l)

/-- Model of `re.sub(r"^\s*\{", "", s, count=1)`: remove the leading
whitespace and the first open brace, when present. -/
def dropOpenBraceWs (l : List Char) : List Char :=
  match lstripPy l with
  | c :: r => if c = lbrace then r else l
  | [] => l

/-! ## `repair_json` (`server/utils/llm_client/utils.py`, lines 59-187) -/

/-- Failure mode of `repair_json`: every input that survives all parse
attempts reaches `re.search(r'[-+*•]\s*[^"\[\],}', ...)`, whose character
class is unterminated, so `re` raises `error("unterminated character set")`
when compiling the pattern. -/
inductive RepairError where
  | bulletRegexUnterminated
deriving DecidableEq, Repr

/-- The guard pattern of the think-tag pass (`"<think" in json_str.lower()`). -/
def thinkPat : List Char := "<think".data

/-- Model of `repair_json` on character lists. The source escapes control
characters first (its comment: "This must be done before any parsing
attempts"), then attempts a parse, then applies think-tag stripping, fence
extraction and the three doubled-brace attempts, re-parsing after each; brace
attempts that do not parse are discarded. The source re-parses only inside
each pass's guard; when a guard fails the string is unchanged and the
previous parse attempt already failed, so the unconditional re-parse used
here is equivalent. -/
def repairJsonL (l0 : List Char) : Except RepairError (List Char) :=
  if l0.isEmpty then .ok []
  else
    let s2 := escape_control_chars (pyStrip l0)
    if jsonOkL s2 then .ok s2
    else
      let s3 := if hasSubL thinkPat (lowerL s2) then pyStrip (stripThink s2) else s2
      if jsonOkL s3 then .ok s3
      else
        let s4 := match fenceSearch s3 with
                  | some body => pyStrip body
                  | none => s3
        if jsonOkL s4 then .ok s4
        else
          let tBoth := dropLastBraceWs (dropOpenBraceWs s4)
          if startsDoubleOpen s4 && endsDoubleClose s4 && jsonOkL tBoth then .ok tBoth
          else
            let tOpen := dropOpenBraceWs s4
            if startsDoubleOpen s4 && jsonOkL tOpen then .ok tOpen
            else
              let tClose := dropLastBraceWs s4
              if endsDoubleClose s4 && jsonOkL tClose then .ok tClose
              else .error .bulletRegexUnterminated

instance {ε α : Type} [DecidableEq ε] [DecidableEq α] : DecidableEq (Except ε α)
  | .error a, .error b =>
    if h : a = b then .isTrue (by rw [h]) else .isFalse (by simp [h])
  | .error _, .ok _ => .isFalse (by simp)
  | .ok _, .error _ => .isFalse (by simp)
  | .ok a, .ok b =>
    if h : a = b then .isTrue (by rw [h]) else .isFalse (by simp [h])

/-- Model of `repair_json` on `String`. -/
def repair_json (s : String) : Except RepairError String :=
  (repairJsonL s.data).map String.mk

/-! ## The OpenAI-compatible streaming normalizer
(`response_generator` in `server/utils/llm_client/providers/openai.py`,
lines 58-127) -/

/-- One vendor streaming delta (`chunk.choices[0].delta`): optional content,
the two optional reasoning-bearing fields, and optional tool-call payloads
(modelled by name only). Absent and empty fields are both falsy in the
source, so they are normalized through `Option`/emptiness checks below. -/
structure StreamDelta where
  content : Option String := none
  reasoning : Option String := none
  reasoning_content : Option String := none
  tool_calls : Option (List String) := none
deriving DecidableEq, Repr

/-- One normalized event yielded to the consumer: an assistant message with a
content delta and optional tool calls. -/
structure StreamEvent where
  content : String
  tool_calls : Option (List String) := none
deriving DecidableEq, Repr

/-- Python truthiness for an optional string: `None` and `""` are falsy. -/
def truthyStr : Option String → Option String
  | some s => if s = "" then none else some s
  | none => none

/-- The reasoning value used by the generator:
`getattr(delta, "reasoning", None) or getattr(delta, "reasoning_content", None)`. -/
def deltaReasoning (d : StreamDelta) : Option String :=
  match truthyStr d.reasoning with
  | some s => some s
  | none => truthyStr d.reasoning_content

/-- Events yielded for a single chunk, given the `reasoning_started` flag;
returns the events in order and the updated flag. Mirrors the body of the
`async for` loop: the reasoning branch may yield a synthetic `<think>` and
the reasoning text, the content branch may yield a synthetic `</think>\n\n`,
and afterwards the chunk's (possibly empty) content is always yielded as a
`response` event carrying the tool calls. -/
def streamStep (started : Bool) (d : StreamDelta) : List StreamEvent × Bool :=
  let content := (truthyStr d.content).getD ""
  let toolCalls := match d.tool_calls with
                   | some ts => if ts = [] then none else some ts
                   | none => none
  let finalEvent : StreamEvent := { content := content, tool_calls := toolCalls }
  match deltaReasoning d with
  | some r =>
    if started then ([⟨r, none⟩, finalEvent], true)
    else ([⟨"<think>", none⟩, ⟨r, none⟩, finalEvent], true)
  | none =>
    if content ≠ "" && started then
      ([⟨"</think>\n\n", none⟩, finalEvent], false)
    else
      ([finalEvent], started)

/-- Model of `response_generator`: fold `streamStep` over the vendor chunks,
starting with `reasoning_started = False`, concatenating the yielded events. -/
def response_generator (chunks : List StreamDelta) : List StreamEvent :=
  (chunks.foldl
    (fun acc d =>
      let (evs, st) := streamStep acc.2 d
      (acc.1 ++ evs, st))
    (([] : List StreamEvent), false)).1

/-- The chunk sequence of the stream-normalization claim:
`[reasoning:"a", reasoning:"b", content:"c"]`. -/
def c2Chunks : List StreamDelta :=
  [{ reasoning := some "a" }, { reasoning := some "b" }, { content := some "c" }]

/-! ## The probe classifier
(`detect_behavior_from_raw_response` in `server/utils/model_probe.py`,
with `THINK_TAG_REGEX = <\s*(think|thinking|reasoning)\s*>.*?</\s*\1\s*>`,
case-insensitive, dot-matches-newline) -/

/-- The alternatives of the capturing group, in the pattern's order. -/
def tagAlts : List (List Char) := ["think".data, "thinking".data, "reasoning".data]

/-- Try the group alternatives in order against the text after `<` and its
following whitespace; an alternative succeeds when, after it and optional
whitespace, a `>` follows. At most one alternative can succeed (the words
are pairwise incompatible prefixes in this position), matching the regex
engine's backtracking. Returns the matched alternative and the rest after
`>`. -/
def tryTagAlts : List (List Char) → List Char → Option (List Char × List Char)
  | [], _ => none
  | alt :: alts, r1 =>
    if startsCI alt r1 then
      match (r1.drop alt.length).dropWhile isPyWsC with
      | '>' :: rest => some (alt, rest)
      | _ => tryTagAlts alts r1
    else tryTagAlts alts r1

/-- Match `<\s*(think|thinking|reasoning)\s*>` at the head of the input. -/
def openTagAt : List Char → Option (List Char × List Char)
  | '<' :: r => tryTagAlts tagAlts (r.dropWhile isPyWsC)
  | _ => none

/-- Match the back-referenced closing tag `</\s*\1\s*>` at the head of the
input (case-insensitive, so matching the lower-cased alternative). -/
def closeTagAt (alt : List Char) : List Char → Option (List Char)
  | '<' :: '/' :: r =>
    let r1 := r.dropWhile isPyWsC
    if startsCI alt r1 then
      match (r1.drop alt.length).dropWhile isPyWsC with
      | '>' :: rest => some rest
      | _ => none
    else none
  | _ => none

/-- Earliest closing tag (the non-greedy `.*?`), scanning left to right. -/
def scanCloseTag (alt : List Char) : Nat → List Char → Option (List Char)
  | 0, _ => none
  | f+1, l =>
    match closeTagAt alt l with
    | some rest => some rest
    | none =>
      match l with
      | [] => none
      | _ :: r => scanCloseTag alt f r

/-- All non-overlapping matches of the think-tag pattern (`finditer`),
returning each match's captured group lower-cased. -/
def findTagMatchesGo : Nat → List Char → List (List Char)
  | 0, _ => []
  | _+1, [] => []
  | f+1, l@(_ :: r) =>
    match openTagAt l with
    | some (alt, afterOpen) =>
      match scanCloseTag alt (afterOpen.length + 1) afterOpen with
      | some rest => alt :: findTagMatchesGo f rest
      | none => findTagMatchesGo f r
    | none => findTagMatchesGo f r

/-- Captured tag names of all matches, in match order. -/
def findTagMatches (l : List Char) : List (List Char) :=
  findTagMatchesGo (l.length + 1) l

/-- Sorted set of matched tag names (`sorted(set(...))`): the captured
alternatives all come from `tagAlts`, and the lexicographically sorted
canonical order of those three words is reasoning < think < thinking, so
sorting the deduplicated matches equals filtering that canonical list. -/
def sortedTagSet (tags : List (List Char)) : List String :=
  (["reasoning", "think", "thinking"].filter (fun t => tags.contains t.data))

/-- A probe response message, with the three candidate reasoning fields and
the content. Fields absent from the JSON message are `none`; the source's
`isinstance(msg[key], str)` guard is absorbed in modelling field values as
optional strings. -/
structure ProbeMsg where
  reasoning_content : Option String := none
  reasoning : Option String := none
  thoughts : Option String := none
  content : Option String := none
deriving DecidableEq, Repr

/-- One element of `choices`; `message` may be absent or null
(`choices[0].get("message") or {}`). -/
structure ProbeChoice where
  message : Option ProbeMsg := none
deriving DecidableEq, Repr

/-- The probe response body (`resp_json.get("choices") or []`). -/
structure ProbeResp where
  choices : List ProbeChoice := []
deriving DecidableEq, Repr

/-- The source's per-field test:
`key in msg and isinstance(msg[key], str) and msg[key].strip()`. -/
def msgFieldCheck (v : Option String) : Bool :=
  match v with
  | some s => !(pyStrip s.data).isEmpty
  | none => false

/-- Model of `detect_behavior_from_raw_response`: result triple
`(capability_type, reasoning_field_name, tag_names)`. -/
def detect_behavior_from_raw_response (resp : ProbeResp) :
    String × Option String × Option (List String) :=
  match resp.choices with
  | [] => ("none", none, none)
  | ch :: _ =>
    let msg := ch.message.getD {}
    if msgFieldCheck msg.reasoning_content then ("field", some "reasoning_content", none)
    else if msgFieldCheck msg.reasoning then ("field", some "reasoning", none)
    else if msgFieldCheck msg.thoughts then ("field", some "thoughts", none)
    else
      let tags := findTagMatches ((msg.content.getD "").data)
      if tags.isEmpty then ("none", none, none)
      else ("tags", none, some (sortedTagSet tags))

/-! ## The probe-and-store operation
(`probe_and_store_model_behavior` in `server/utils/model_probe.py`,
lines 58-196) -/

/-- Outcome of the probe HTTP interaction inside the `try` block: `exn`
models a transport failure or any other exception raised there; `status`
models a completed HTTP reply, whose `body` is the parsed JSON
(`none` models `r.json()` raising, which lands in the same `except`). -/
inductive ProbeNet where
  | exn
  | status (code : Nat) (body : Option ProbeResp)
deriving DecidableEq, Repr

/-- The row written through `db.upsert_model_capability`. -/
structure CapabilityUpsert where
  provider : String
  model : String
  capability_type : String
  tag_names : List String
  reasoning_field_name : Option String
  sample_stored : Bool
deriving DecidableEq, Repr

/-- The dictionary returned to the caller. -/
structure ProbeResult where
  probed : Bool
  provider : String
  model : String
  capability_type : String
  reasoning_field_name : Option String
  tag_names : List String
deriving DecidableEq, Repr

/-- ASCII lower-casing of a string. -/
def lowerS (s : String) : String := String.mk (lowerL s.data)

/-- Truthiness of the `base_url` argument (`not base_url` is true for both
`None` and the empty string). -/
def hasBaseUrl : Option String → Bool
  | some s => s ≠ ""
  | none => false

/-- The default behavior stored on every non-success path. -/
def defaultUpsert (p model : String) : CapabilityUpsert :=
  { provider := p, model := model, capability_type := "none", tag_names := [],
    reasoning_field_name := none, sample_stored := false }

/-- The result dictionary for a non-probed outcome. -/
def defaultResult (p model : String) : ProbeResult :=
  { probed := false, provider := p, model := model, capability_type := "none",
    reasoning_field_name := none, tag_names := [] }

/-- Model of `probe_and_store_model_behavior`. The function is total: every
failure path (non-OpenAI provider, missing `base_url`, non-200 status,
transport failure or any exception inside the `try`, modelled by
`ProbeNet`) falls into a branch that stores the default capability and
returns a result dictionary; `db.upsert_model_capability` is modelled as a
non-raising store, and the one store performed is returned alongside the
result. -/
def probe_and_store_model_behavior (provider : Option String)
    (base_url : Option String) (_api_key : Option String) (model : String)
    (net : ProbeNet) : CapabilityUpsert × ProbeResult :=
  let p := lowerS (provider.getD "")
  if p = "ollama" then
    (defaultUpsert p model, defaultResult p model)
  else if ¬(p = "openai" ∧ hasBaseUrl base_url) then
    (defaultUpsert p model, defaultResult p model)
  else
    match net with
    | .exn => (defaultUpsert p model, defaultResult p model)
    | .status code body =>
      if code ≠ 200 then (defaultUpsert p model, defaultResult p model)
      else
        match body with
        | none => (defaultUpsert p model, defaultResult p model)
        | some raw =>
          let d := detect_behavior_from_raw_response raw
          ({ provider := p, model := model, capability_type := d.1,
             tag_names := (d.2.2.getD []), reasoning_field_name := d.2.1,
             sample_stored := true },
           { probed := true, provider := p, model := model,
             capability_type := d.1, reasoning_field_name := d.2.1,
             tag_names := (d.2.2.getD []) })

/-- The raw body of a successful probe, when the call reaches the network
and returns HTTP 200 with parseable JSON; `none` on every failure path. -/
def probeSuccessBody (provider base_url : Option String) (net : ProbeNet) :
    Option ProbeResp :=
  if lowerS (provider.getD "") = "openai" && hasBaseUrl base_url then
    match net with
    | .status 200 (some raw) => some raw
    | _ => none
  else none

/-! ## Capability lookup with name fallback
(`get_model_thinking_behavior` in `server/utils/llm_client.py`, lines 92-108) -/

/-- The three capability classifications. -/
inductive ModelThinkingBehavior where
  | NONE
  | TAGS
  | FIELD
deriving DecidableEq, Repr

/-- A stored capability row as read back from the database. -/
structure CapRow where
  capability_type : String
deriving DecidableEq, Repr

/-- Modelled from the spec: `_fallback_behavior_from_name` is called by
`get_model_thinking_behavior` but its definition is not present under the
sources. The spec describes it as "a static name-substring list (e.g.,
model name containing a known reasoning-capable family token) classifies as
`tags`; otherwise `none`"; the token list itself is not fixed by the spec,
so it is a parameter here. -/
def fallback_behavior_from_name (tokens : List String) (model_name : String) :
    ModelThinkingBehavior :=
  if tokens.any (fun t => hasSubL t.data model_name.data) then .TAGS else .NONE

/-- Model of `get_model_thinking_behavior`; `rec` is the value of
`db.get_model_capability(provider, model_name) if model_name else None`. -/
def get_model_thinking_behavior (tokens : List String) (model_name : String)
    (rec : Option CapRow) : ModelThinkingBehavior :=
  match rec with
  | some r =>
    if r.capability_type = "tags" then .TAGS
    else if r.capability_type = "field" then .FIELD
    else .NONE
  | none => fallback_behavior_from_name tokens model_name

/-! ## Python values and the OpenAI-compatible request parameters
(`openai_compatible_chat` in `server/utils/llm_client/providers/openai.py`) -/

/-- Untyped Python values, as far as the request assembly needs them. -/
inductive PyVal where
  | str (s : String)
  | num (n : Int)
  | bool (b : Bool)
  | dict (entries : List (String × PyVal))
  | arr (items : List PyVal)
  | tup (items : List PyVal)

/-- Python truthiness of a `PyVal`. -/
def pyTruthy : PyVal → Bool
  | .str s => s ≠ ""
  | .num n => n ≠ 0
  | .bool b => b
  | .dict d => !d.isEmpty
  | .arr a => !a.isEmpty
  | .tup t => !t.isEmpty

/-- Assignment into a Python dict modelled as an association list: replaces
any existing binding and appends the new one. -/
def dictSet (d : List (String × PyVal)) (k : String) (v : PyVal) :
    List (String × PyVal) :=
  (d.filter (fun kv => kv.1 ≠ k)) ++ [(k, v)]

/-- Lookup in the association list. -/
def dictGet (d : List (String × PyVal)) (k : String) : Option PyVal :=
  (d.find? (fun kv => kv.1 = k)).map (·.2)

/-- A chat message as passed through the client. -/
structure ChatMsg where
  role : String
  content : String
deriving DecidableEq, Repr

/-- Model of the request-parameter assembly of `openai_compatible_chat`
(lines 23-55 and the non-streaming `extra_body` update of lines 130-134):
`model` and `messages` always, `tools` and `tool_choice` when tools are
given, `temperature`/`stop` mapped from `options`, `response_format` when a
schema (`format`) is given — note the source assigns a one-element tuple
`({...},)` — and `stream`/`extra_body` per the stream flag. -/
def openai_compatible_params (model : String) (messages : List ChatMsg)
    (format : Option PyVal) (options : Option (List (String × PyVal)))
    (tools : Option (List PyVal)) (stream : Bool)
    (extra_body : Option (List (String × PyVal))) : List (String × PyVal) :=
  let msgsVal : PyVal :=
    .arr (messages.map (fun m => .dict [("role", .str m.role), ("content", .str m.content)]))
  let params := [("model", PyVal.str model), ("messages", msgsVal)]
  let params := match tools with
    | some ts =>
      if ts.isEmpty then params
      else
        let params := dictSet params "tools" (.arr ts)
        match options with
        | some opts =>
          if (dictGet opts "force_tools").any pyTruthy then
            dictSet params "tool_choice" (.str "required")
          else params
        | none => params
    | none => params
  let params := match options with
    | some opts =>
      let params := match dictGet opts "temperature" with
        | some v => dictSet params "temperature" v
        | none => params
      match dictGet opts "stop" with
      | some v => dictSet params "stop" v
      | none => params
    | none => params
  let params := match format with
    | some f =>
      if pyTruthy f then
        dictSet params "response_format"
          (.tup [.dict [("type", .str "json_schema"), ("json_schema", f)]])
      else params
    | none => params
  if stream then dictSet params "stream" (.bool true)
  else
    match extra_body with
    | some eb => if eb.isEmpty then params else eb.foldl (fun d kv => dictSet d kv.1 kv.2) params
    | none => params

/-! ## `chat_with_structured_output`
(`server/utils/llm_client/client.py`, lines 122-159) -/

/-- Em dash (U+2014). -/
def emDash : Char := Char.ofNat 0x2014

/-- En dash (U+2013). -/
def enDash : Char := Char.ofNat 0x2013

/-- Model of `.replace("—", "-").replace("–", "-")`. -/
def dashReplace (l : List Char) : List Char :=
  l.map (fun c => if c = emDash || c = enDash then '-' else c)

/-- Per-character model of the third-party `unidecode.unidecode`
transliteration: ASCII characters map to themselves; non-ASCII characters
map to an ASCII sequence (a small representative part of the library's
table; characters without an entry are dropped, as the library does). The
library's contract relied on below is that the output is pure ASCII. -/
def unidecodeChar (c : Char) : List Char :=
  if c.toNat < 128 then [c]
  else if c = Char.ofNat 0xE9 || c = Char.ofNat 0xE8 then ['e']
  else if c = Char.ofNat 0x2019 then [Char.ofNat 39]
  else if c = Char.ofNat 0x2026 then ['.', '.', '.']
  else []

/-- Model of `unidecode.unidecode` over a character list. -/
def unidecodeL : List Char → List Char
  | [] => []
  | c :: r => unidecodeChar c ++ unidecodeL r

/-- One issued `chat` call, as `AsyncLLMClient.chat` receives it. -/
structure ChatCall where
  model : String
  messages : List ChatMsg
  format : Option PyVal
  options : Option (List (String × PyVal))

/-- The response message a `chat` call resolves to. -/
structure ChatRespMsg where
  content : String
deriving DecidableEq, Repr

/-- Model of `AsyncLLMClient.chat_with_structured_output` for the non-local
providers, instrumented to return the list of `chat` calls it issues next
to its result. The source issues a single `self.chat(...)` with the schema
attached as `format` — it never consults the model's cached capability
classification and never calls the two-call thinking helpers — then maps
the response content through the dash replacement, `unidecode`, and
`repair_json`. -/
def chat_with_structured_output (oracle : ChatCall → ChatRespMsg)
    (model : String) (messages : List ChatMsg) (schema : PyVal)
    (options : Option (List (String × PyVal))) :
    List ChatCall × Except RepairError String :=
  let call : ChatCall :=
    { model := model, messages := messages, format := some schema, options := options }
  let resp := oracle call
  let ascii := unidecodeL (dashReplace resp.content.data)
  ([call], (repairJsonL ascii).map String.mk)

/-! ## The bullet-normalization passes as the spec intends them
(the substitution patterns of `repair_json` lines 161-162 and 176; the
search guard at line 157 is the one whose character class is unterminated,
so these passes are modelled here with the intended, terminated guard for
use in the claim-side pipeline only). -/

/-- Bullet characters `[-+*•]`. -/
def isBulletC (c : Char) : Bool :=
  c = '-' || c = '+' || c = '*' || c = Char.ofNat 0x2022

/-- Characters allowed in the unquoted-bullet group `[^,\[\]"\n]`. -/
def isGrpC (c : Char) : Bool :=
  !(c = ',' || c = '[' || c = ']' || c = '"' || c = '\n')

/-- The lookahead `(?=,|\n|\s*\])`. -/
def bulletLook (l : List Char) : Bool :=
  match l with
  | ',' :: _ => true
  | '\n' :: _ => true
  | _ =>
    match l.dropWhile isPyWsC with
    | ']' :: _ => true
    | _ => false

/-- Smallest group length (the non-greedy `([^,\[\]"\n]+?)`) whose
lookahead succeeds; `k` counts characters already in the group. -/
def bulletGrpGo : Nat → List Char → Nat → Option Nat
  | 0, _, _ => none
  | f+1, l, k =>
    match l with
    | [] => none
    | c :: r =>
      if isGrpC c then
        if bulletLook r then some (k + 1) else bulletGrpGo f r (k + 1)
      else none

/-- Backtracking over the greedy `\s*`: try the longest whitespace run
first, then shorter ones. Returns `(w, k)`: whitespace consumed and group
length. -/
def bulletTryW (rest : List Char) : Nat → Option (Nat × Nat)
  | 0 =>
    match bulletGrpGo (rest.length + 1) rest 0 with
    | some k => some (0, k)
    | none => none
  | w + 1 =>
    match bulletGrpGo ((rest.drop (w + 1)).length + 1) (rest.drop (w + 1)) 0 with
    | some k => some (w + 1, k)
    | none => bulletTryW rest w

/-- Try the unquoted-bullet pattern anchored at the head. -/
def bulletTryAt (l : List Char) : Option (Nat × Nat) :=
  match l with
  | c :: rest =>
    if isBulletC c then bulletTryW rest (rest.takeWhile isPyWsC).length
    else none
  | [] => none

/-- The substitution `re.sub(r'[-+*•]\s*([^,\[\]"\n]+?)(?=,|\n|\s*\])', r'"\1"', s)`. -/
def bulletSub1Go : Nat → List Char → List Char
  | 0, l => l
  | _+1, [] => []
  | f+1, l@(c :: r) =>
    match bulletTryAt l with
    | some (w, k) =>
      let grp := (r.drop w).take k
      '"' :: (grp ++ '"' :: bulletSub1Go f (l.drop (1 + w + k)))
    | none => c :: bulletSub1Go f r

/-- Unquoted-bullet normalization. -/
def bulletSub1 (l : List Char) : List Char := bulletSub1Go (l.length + 1) l

/-- Try the quoted-bullet pattern `[-+*•]\s*"([^"]*)"` anchored at the
head; returns `(w, k)`: whitespace run and group length. -/
def bulletTry2At (l : List Char) : Option (Nat × Nat) :=
  match l with
  | c :: rest =>
    if isBulletC c then
      let w := (rest.takeWhile isPyWsC).length
      match rest.drop w with
      | '"' :: r2 =>
        let k := (r2.takeWhile (· ≠ '"')).length
        match r2.drop k with
        | '"' :: _ => some (w, k)
        | _ => none
      | _ => none
    else none
  | [] => none

/-- The substitution `re.sub(r'[-+*•]\s*"([^"]*)"', r'"\1"', s)`. -/
def bulletSub2Go : Nat → List Char → List Char
  | 0, l => l
  | _+1, [] => []
  | f+1, l@(c :: r) =>
    match bulletTry2At l with
    | some (w, k) =>
      let grp := ((r.drop w).drop 1).take k
      '"' :: (grp ++ '"' :: bulletSub2Go f (l.drop (1 + w + 1 + k + 1)))
    | none => c :: bulletSub2Go f r

/-- Quoted-bullet normalization. -/
def bulletSub2 (l : List Char) : List Char := bulletSub2Go (l.length + 1) l

/-- The intended guard `re.search(r'[-+*•]\s*[^"\[\],}]', s)`: since
whitespace characters themselves belong to the character class, the pattern
matches exactly when some bullet is directly followed by a character
outside `"`, `[`, `]`, `,`, `}`. -/
def bulletGuard1 : List Char → Bool
  | [] => false
  | c :: r =>
    (isBulletC c &&
      (match r with
       | d :: _ => !(d = '"' || d = '[' || d = ']' || d = ',' || d = rbrace)
       | [] => false)) || bulletGuard1 r

/-- The guard `re.search(r'[-+*•]\s*"', s)`. -/
def bulletGuard2 : List Char → Bool
  | [] => false
  | c :: r =>
    (isBulletC c &&
      (match r.dropWhile isPyWsC with
       | '"' :: _ => true
       | _ => false)) || bulletGuard2 r

/-! ## Pipeline combinators: the repair pipeline as an ordered stage list -/

/-- The think-tag stage of `repair_json` (guarded substitution plus strip). -/
def thinkStage (s : List Char) : List Char :=
  if hasSubL thinkPat (lowerL s) then pyStrip (stripThink s) else s

/-- The code-fence stage. -/
def fenceStage (s : List Char) : List Char :=
  match fenceSearch s with
  | some body => pyStrip body
  | none => s

/-- The entry stage: strip, then escape control characters. -/
def escapeStage (s : List Char) : List Char := escape_control_chars (pyStrip s)

/-- The symmetric doubled-brace stage. -/
def braceBothStage (s : List Char) : List Char :=
  if startsDoubleOpen s && endsDoubleClose s then dropLastBraceWs (dropOpenBraceWs s)
  else s

/-- The doubled-open-brace stage. -/
def braceOpenStage (s : List Char) : List Char :=
  if startsDoubleOpen s then dropOpenBraceWs s else s

/-- The doubled-close-brace stage. -/
def braceCloseStage (s : List Char) : List Char :=
  if endsDoubleClose s then dropLastBraceWs s else s

/-- The guarded unquoted-bullet stage (intended form). -/
def bullet1Stage (s : List Char) : List Char :=
  if bulletGuard1 s then bulletSub1 s else s

/-- The guarded quoted-bullet stage. -/
def bullet2Stage (s : List Char) : List Char :=
  if bulletGuard2 s then bulletSub2 s else s

/-- Run stages in order, re-attempting a parse after each; a stage marked
`true` keeps its rewrite for later stages, a stage marked `false` reverts
it unless it parses. When no stage parses, the accumulated string reaches
the unterminated bullet-guard regex and `re` raises. -/
def runStages : List ((List Char → List Char) × Bool) → List Char →
    Except RepairError (List Char)
  | [], _ => .error .bulletRegexUnterminated
  | (f, keep) :: rest, s =>
    let t := f s
    if jsonOkL t then .ok t
    else runStages rest (if keep then t else s)

/-- The order `repair_json` actually applies (claim C3 amended): escape
control characters before the first parse attempt, then think-tag
stripping, fence extraction, and the three doubled-brace attempts (reverted
when they do not parse); no input ever reaches a bullet rewrite because the
bullet guard's regex fails to compile. -/
def repairActualOrder (l0 : List Char) : Except RepairError (List Char) :=
  if l0.isEmpty then .ok []
  else
    runStages
      [(escapeStage, true), (thinkStage, true), (fenceStage, true),
       (braceBothStage, false), (braceOpenStage, false), (braceCloseStage, false)]
      l0

/-- The tail of `repair_json` after the fence stage, as the source writes
it: the three guarded doubled-brace attempts, then the raising bullet guard. -/
def braceCode (s : List Char) : Except RepairError (List Char) :=
  if startsDoubleOpen s && endsDoubleClose s &&
      jsonOkL (dropLastBraceWs (dropOpenBraceWs s)) then
    .ok (dropLastBraceWs (dropOpenBraceWs s))
  else if startsDoubleOpen s && jsonOkL (dropOpenBraceWs s) then
    .ok (dropOpenBraceWs s)
  else if endsDoubleClose s && jsonOkL (dropLastBraceWs s) then
    .ok (dropLastBraceWs s)
  else .error .bulletRegexUnterminated

/-- The same tail phrased through the revertible stage functions. -/
def braceStages (s : List Char) : Except RepairError (List Char) :=
  if jsonOkL (braceBothStage s) then .ok (braceBothStage s)
  else if jsonOkL (braceOpenStage s) then .ok (braceOpenStage s)
  else if jsonOkL (braceCloseStage s) then .ok (braceCloseStage s)
  else .error .bulletRegexUnterminated

/-- Run stages in the claim's manner: parse after each, return the first
parsing result, otherwise the furthest-repaired string. -/
def runStagesSpec : List ((List Char → List Char) × Bool) → List Char → List Char
  | [], s => s
  | (f, keep) :: rest, s =>
    let t := f s
    if jsonOkL t then t
    else runStagesSpec rest (if keep then t else s)

/-- The repair pipeline as claim C3 states it: strip, parse, then
(1) think-tag stripping, (2) code-fence extraction, (3) control-character
escaping, (4) doubled-brace stripping, (5) bullet normalization, parsing
after each pass, returning at the first pass whose output parses and
otherwise the furthest-repaired string (never raising). -/
def repairSpecC3 (l0 : List Char) : List Char :=
  if l0.isEmpty then []
  else
    let s := pyStrip l0
    if jsonOkL s then s
    else
      runStagesSpec
        [(thinkStage, true), (fenceStage, true),
         (escape_control_chars, true),
         (braceBothStage, false), (braceOpenStage, false), (braceCloseStage, false),
         (bullet1Stage, true), (bullet2Stage, true)]
        s

/-! ## The probe classifier as claim C6 states it -/

/-- The claim's field test: a non-empty string field. -/
def msgFieldNonEmpty (v : Option String) : Bool :=
  match v with
  | some s => s ≠ ""
  | none => false

/-- Strict open tag `<TAG>` (claim wording: no whitespace inside the
angle brackets), case-insensitive. -/
def tryTagAltsStrict : List (List Char) → List Char → Option (List Char × List Char)
  | [], _ => none
  | alt :: alts, r =>
    if startsCI alt r then
      match r.drop alt.length with
      | '>' :: rest => some (alt, rest)
      | _ => tryTagAltsStrict alts r
    else tryTagAltsStrict alts r

/-- Strict `<TAG>` at the head. -/
def openTagStrictAt : List Char → Option (List Char × List Char)
  | '<' :: r => tryTagAltsStrict tagAlts r
  | _ => none

/-- Strict `</TAG>` at the head, for the same tag. -/
def closeTagStrictAt (alt : List Char) : List Char → Option (List Char)
  | '<' :: '/' :: r =>
    if startsCI alt r then
      match r.drop alt.length with
      | '>' :: rest => some rest
      | _ => none
    else none
  | _ => none

/-- Earliest strict closing tag. -/
def scanCloseStrict (alt : List Char) : Nat → List Char → Option (List Char)
  | 0, _ => none
  | f+1, l =>
    match closeTagStrictAt alt l with
    | some rest => some rest
    | none =>
      match l with
      | [] => none
      | _ :: r => scanCloseStrict alt f r

/-- All strict tag spans, in match order. -/
def findTagStrictGo : Nat → List Char → List (List Char)
  | 0, _ => []
  | _+1, [] => []
  | f+1, l@(_ :: r) =>
    match openTagStrictAt l with
    | some (alt, afterOpen) =>
      match scanCloseStrict alt (afterOpen.length + 1) afterOpen with
      | some rest => alt :: findTagStrictGo f rest
      | none => findTagStrictGo f r
    | none => findTagStrictGo f r

/-- Strict tag matches of the whole input. -/
def findTagStrict (l : List Char) : List (List Char) :=
  findTagStrictGo (l.length + 1) l

/-- The probe classifier as claim C6 words it: a non-empty string field
named `reasoning_content`, `reasoning` or `thoughts` (in that order) gives
`field` with that key; else a case-insensitive `<TAG>...</TAG>` span with
matching open/close tag gives `tags` with the set of matched names;
otherwise `none`. -/
def detectSpecC6 (resp : ProbeResp) : String × Option String × Option (List String) :=
  match resp.choices with
  | [] => ("none", none, none)
  | ch :: _ =>
    let msg := ch.message.getD {}
    let fields : List (String × Option String) :=
      [("reasoning_content", msg.reasoning_content), ("reasoning", msg.reasoning),
       ("thoughts", msg.thoughts)]
    match fields.find? (fun kv => msgFieldNonEmpty kv.2) with
    | some kv => ("field", some kv.1, none)
    | none =>
      let tags := findTagStrict ((msg.content.getD "").data)
      if tags.isEmpty then ("none", none, none)
      else ("tags", none, some (sortedTagSet tags))

/-- The claim amended to the source's tests: the field must be non-blank
(non-empty after stripping whitespace), and the tag span tolerates
whitespace inside the angle brackets, as the probe regex `<\s*TAG\s*>` does. -/
def detectSpecC6Amended (resp : ProbeResp) : String × Option String × Option (List String) :=
  match resp.choices with
  | [] => ("none", none, none)
  | ch :: _ =>
    let msg := ch.message.getD {}
    let fields : List (String × Option String) :=
      [("reasoning_content", msg.reasoning_content), ("reasoning", msg.reasoning),
       ("thoughts", msg.thoughts)]
    match fields.find? (fun kv => msgFieldCheck kv.2) with
    | some kv => ("field", some kv.1, none)
    | none =>
      let tags := findTagMatches ((msg.content.getD "").data)
      if tags.isEmpty then ("none", none, none)
      else ("tags", none, some (sortedTagSet tags))

/-! ## Helper lemmas -/

theorem findClose_decomp (r : List Char) :
    ∀ a b, findClose r = some (a, b) → r = a ++ '"' :: b := by
  induction r using findClose.induct with
  | case1 => intro a b h; simp [findClose] at h
  | case2 => intro a b h; simp [findClose] at h
  | case3 e rest2 ih =>
    intro a b h
    simp only [findClose, if_pos] at h
    cases hf : findClose rest2 with
    | none => rw [hf] at h; simp at h
    | some q =>
      rw [hf] at h
      simp only [Option.map_some'] at h
      cases h.symm
      simp [ih q.1 q.2 hf]
  | case4 rest2 hq =>
    intro a b h
    rw [findClose.eq_def] at h
    simp at h
    rcases h with ⟨rfl, rfl⟩
    simp
  | case5 e rest2 hc hq ih =>
    intro a b h
    rw [findClose.eq_def] at h
    simp only [hc, hq, if_false] at h
    cases hf : findClose rest2 with
    | none => rw [hf] at h; simp at h
    | some q =>
      rw [hf] at h
      simp only [Option.map_some'] at h
      cases h.symm
      simp [ih q.1 q.2 hf]

theorem escChar_eq_self {c : Char} (h1 : c ≠ '\\') (h2 : c ≠ '\n') (h3 : c ≠ '\r')
    (h4 : c ≠ '\t') : escChar c = [c] := by
  unfold escChar
  rw [if_neg h1, if_neg h2, if_neg h3, if_neg h4]

theorem escContent_eq_self (l : List Char)
    (h : ∀ c ∈ l, c ≠ '\\' ∧ c ≠ '\n' ∧ c ≠ '\r' ∧ c ≠ '\t') : escContent l = l := by
  induction l with
  | nil => rfl
  | cons c r ih =>
    have hc := h c (by simp)
    rw [escContent, escChar_eq_self hc.1 hc.2.1 hc.2.2.1 hc.2.2.2,
      ih (fun d hd => h d (by simp [hd]))]
    rfl

theorem escapeGo_eq_self (f : Nat) : ∀ l : List Char,
    (∀ c ∈ l, c ≠ '\\' ∧ c ≠ '\n' ∧ c ≠ '\r' ∧ c ≠ '\t') → escapeGo f l = l := by
  induction f with
  | zero => intro l _; rfl
  | succ f ih =>
    intro l h
    match l with
    | [] => rfl
    | c :: r =>
      simp only [escapeGo]
      by_cases hq : c = '"'
      · rw [if_pos hq]
        cases hf : findClose r with
        | none => exact hq ▸ rfl
        | some p =>
          obtain ⟨p1, p2⟩ := p
          have hdec := findClose_decomp r p1 p2 hf
          have hmem : ∀ d ∈ p1, d ∈ r := by
            intro d hd; rw [hdec]; exact List.mem_append_left _ hd
          have hmem2 : ∀ d ∈ p2, d ∈ r := by
            intro d hd; rw [hdec]
            exact List.mem_append_right _ (by simp [hd])
          show '"' :: (escContent p1 ++ '"' :: escapeGo f p2) = c :: r
          rw [escContent_eq_self p1 (fun d hd => h d (by simp [hmem d hd])),
            ih p2 (fun d hd => h d (by simp [hmem2 d hd]))]
          rw [hq, hdec]
      · rw [if_neg hq, ih r (fun d hd => h d (by simp [hd]))]

/-! ## Claim C5 -/

/-- Claim C5, counterexample: the control-character-escaping pass is not
idempotent.  On the four-character input `"\n"` (quote, backslash, `n`,
quote) one application yields `"\\n"` and a second application yields
`"\\\\n"`, because the pass doubles every backslash inside a string literal
on every run. -/
theorem C5_counterexample :
    escape_control_chars (escape_control_chars "\"\\n\"".data) ≠
      escape_control_chars "\"\\n\"".data := by decide

/-- Claim C5, amended: not every repair pass is idempotent.  The
control-character-escaping pass is the identity — and therefore idempotent —
on every string whose characters include no backslash and no literal
newline, carriage return, or tab; on strings with a backslash inside a
string literal it is not idempotent (see the counterexample). -/
theorem C5_escape_identity_on_clean (l : List Char)
    (h : ∀ c ∈ l, c ≠ '\\' ∧ c ≠ '\n' ∧ c ≠ '\r' ∧ c ≠ '\t') :
    escape_control_chars l = l ∧
    escape_control_chars (escape_control_chars l) = escape_control_chars l := by
  have h1 : escape_control_chars l = l := escapeGo_eq_self (l.length + 1) l h
  exact ⟨h1, by rw [h1]; exact h1⟩

/-- Witness for the amended C5 theorem at the concrete input `{"a":1}`. -/
theorem C5_escape_identity_witness :
    (∀ c ∈ ("\x7b\"a\":1\x7d".data), c ≠ '\\' ∧ c ≠ '\n' ∧ c ≠ '\r' ∧ c ≠ '\t') ∧
    (escape_control_chars "\x7b\"a\":1\x7d".data = "\x7b\"a\":1\x7d".data ∧
     escape_control_chars (escape_control_chars "\x7b\"a\":1\x7d".data) =
       escape_control_chars "\x7b\"a\":1\x7d".data) :=
  ⟨by decide, C5_escape_identity_on_clean _ (by decide)⟩

/-! ## Claim C4 -/

/-- Claim C4: `repair_json` is not the identity on already-parseable JSON.
The input `{"a":"b\nc"}` (with the two-character escape sequence backslash-n
inside the string literal) is accepted by `json.loads`, yet `repair_json`
returns `{"a":"b\\nc"}`: the escaping pass runs before the first parse
attempt and doubles the backslash, so the valid input is returned modified.
This contradicts the function's own intent (its comment says the backslash
doubling exists "to avoid double-escaping") and the spec's round-trip
property, so the code, not the claim, is at fault. -/
theorem C4_code_bug_eval :
    jsonOk "\x7b\"a\":\"b\\nc\"\x7d" = true ∧
    repair_json "\x7b\"a\":\"b\\nc\"\x7d" = .ok "\x7b\"a\":\"b\\\\nc\"\x7d" ∧
    ("\x7b\"a\":\"b\\\\nc\"\x7d" : String) ≠ "\x7b\"a\":\"b\\nc\"\x7d" := by
  refine ⟨by decide, by decide, by decide⟩

/-! ## Claim C2 -/

/-- Claim C2, counterexample: for the vendor chunk sequence
`[reasoning:"a", reasoning:"b", content:"c"]` the normalizer does not emit
exactly `["<think>", "a", "b", "</think>\n\n", "c"]`: the loop's final
`yield response` runs for every chunk, so each reasoning chunk is followed
by an extra empty content-delta event. -/
theorem C2_counterexample :
    (response_generator c2Chunks).map (·.content) ≠
      ["<think>", "a", "b", "</think>\n\n", "c"] := by decide

/-- Claim C2, amended: the normalizer emits exactly the seven-event sequence
`["<think>", "a", "", "b", "", "</think>\n\n", "c"]` — the claimed five
events with an additional empty content-delta event after each reasoning
chunk — and no event carries tool calls. -/
theorem C2_amended_event_sequence :
    response_generator c2Chunks =
      [⟨"<think>", none⟩, ⟨"a", none⟩, ⟨"", none⟩, ⟨"b", none⟩, ⟨"", none⟩,
       ⟨"</think>\n\n", none⟩, ⟨"c", none⟩] := by decide

/-! ## Claim C9 -/

/-- Claim C9: when no stored capability row exists for the (provider, model)
pair, `get_model_thinking_behavior` falls back to the static name-substring
heuristic: `tags` when the model name contains a known reasoning-capable
family token, `none` otherwise, and (being a total function) raises no
error.  The fallback `_fallback_behavior_from_name` is modelled from the
spec because its definition is absent from the sources. -/
theorem C9_fallback_heuristic (tokens : List String) (model_name : String)
    (rec : Option CapRow) (h : rec = none) :
    get_model_thinking_behavior tokens model_name rec =
      (if tokens.any (fun t => hasSubL t.data model_name.data)
       then ModelThinkingBehavior.TAGS else ModelThinkingBehavior.NONE) := by
  subst h; rfl

/-- Witness for C9 at a concrete reasoning-family model name. -/
theorem C9_fallback_witness :
    ((none : Option CapRow) = none) ∧
    get_model_thinking_behavior ["deepseek-r1"] "deepseek-r1:70b" none =
      (if (["deepseek-r1"].any fun t => hasSubL t.data "deepseek-r1:70b".data)
       then ModelThinkingBehavior.TAGS else ModelThinkingBehavior.NONE) :=
  ⟨rfl, C9_fallback_heuristic ["deepseek-r1"] "deepseek-r1:70b" none rfl⟩

/-! ## Claim C6 -/

/-- A probe response whose first choice carries a whitespace-only
`reasoning_content` field next to ordinary content. -/
def c6WhitespaceFieldResp : ProbeResp :=
  { choices := [{ message := some { reasoning_content := some " ",
                                    content := some "hello" } }] }

/-- Claim C6, counterexample: the classifier does not implement the claim's
three-step algorithm verbatim.  For a message whose `reasoning_content`
field is the non-empty string `" "`, the claim's first step returns
`field`, but the source tests `msg[key].strip()`, treats the blank field as
absent, and returns `none`. -/
theorem C6_counterexample :
    detect_behavior_from_raw_response c6WhitespaceFieldResp = ("none", none, none) ∧
    detectSpecC6 c6WhitespaceFieldResp = ("field", some "reasoning_content", none) ∧
    detect_behavior_from_raw_response c6WhitespaceFieldResp ≠
      detectSpecC6 c6WhitespaceFieldResp := by
  refine ⟨by decide, by decide, by decide⟩

/-- Claim C6, amended: the classifier implements the three-step algorithm
with two refinements — a field counts only when non-blank (non-empty after
stripping whitespace), and the tag span tolerates whitespace inside the
angle brackets (the probe regex is `<\s*TAG\s*>.*?</\s*TAG\s*>`). -/
theorem C6_amended_classifier :
    ∀ resp, detect_behavior_from_raw_response resp = detectSpecC6Amended resp := by
  intro resp
  rcases resp with ⟨choices⟩
  cases choices with
  | nil => rfl
  | cons ch rest =>
    simp only [detect_behavior_from_raw_response, detectSpecC6Amended, List.find?]
    by_cases h1 : msgFieldCheck (ch.message.getD {}).reasoning_content
    · simp [h1]
    · by_cases h2 : msgFieldCheck (ch.message.getD {}).reasoning
      · simp [h1, h2]
      · by_cases h3 : msgFieldCheck (ch.message.getD {}).thoughts
        · simp [h1, h2, h3]
        · simp [h1, h2, h3]

/-! ## Claim C1 -/

/-- Claim C1: for a model whose cached classification is `tags`,
`chat_with_structured_output` was claimed to issue exactly two chat calls
(first without schema and with `stop = ["</think>"]`, second with schema
and a think-block assistant turn).  The source instead issues exactly one
chat call with the schema attached and the caller's options untouched, for
every model: the method never consults the capability classification, even
though its docstring promises the two-call protocol for thinking models
(the helpers `_ollama_thinking_structured_output` and
`_openai_thinking_structured_output` that implement it are never called).
Evaluated here at a concrete request against a model cached as `tags`. -/
theorem C1_code_bug_single_call :
    (chat_with_structured_output (fun _ => ⟨"\x7b\x7d"⟩) "deepseek-r1"
        [⟨"user", "hi"⟩] (.dict [("type", .str "object")]) none).1.length = 1 ∧
    (chat_with_structured_output (fun _ => ⟨"\x7b\x7d"⟩) "deepseek-r1"
        [⟨"user", "hi"⟩] (.dict [("type", .str "object")]) none).1.length ≠ 2 ∧
    ((chat_with_structured_output (fun _ => ⟨"\x7b\x7d"⟩) "deepseek-r1"
        [⟨"user", "hi"⟩] (.dict [("type", .str "object")]) none).1.map
      (fun c => (c.format.isSome, c.options.isSome))) = [(true, false)] ∧
    (chat_with_structured_output (fun _ => ⟨"\x7b\x7d"⟩) "deepseek-r1"
        [⟨"user", "hi"⟩] (.dict [("type", .str "object")]) none).2 = .ok "\x7b\x7d" := by
  refine ⟨rfl, by decide, rfl, by decide⟩

/-! ## Claim C8 -/

/-- Claim C8: when a schema is supplied to a non-streaming request, the
adapter was claimed to set `response_format` to exactly the object
`{type: "json_schema", json_schema: <schema>}`.  The source line ends in a
trailing comma, so `params["response_format"]` is assigned the one-element
tuple `({...},)` wrapping that object, not the object itself — a slip the
claim correctly describes the intent of (the legacy copy of the adapter
and the OpenAI API shape both use the bare object).  Evaluated at the
schema `{"type": "object"}`. -/
theorem C8_code_bug_response_format :
    dictGet (openai_compatible_params "m" [⟨"user", "hi"⟩]
        (some (.dict [("type", .str "object")])) none none false none)
      "response_format" =
      some (.tup [.dict [("type", .str "json_schema"),
                         ("json_schema", .dict [("type", .str "object")])]]) ∧
    dictGet (openai_compatible_params "m" [⟨"user", "hi"⟩]
        (some (.dict [("type", .str "object")])) none none false none)
      "response_format" ≠
      some (.dict [("type", .str "json_schema"),
                   ("json_schema", .dict [("type", .str "object")])]) := by
  constructor
  · rfl
  · intro h
    rw [show dictGet (openai_compatible_params "m" [⟨"user", "hi"⟩]
        (some (.dict [("type", .str "object")])) none none false none)
      "response_format" =
      some (.tup [.dict [("type", .str "json_schema"),
                         ("json_schema", .dict [("type", .str "object")])]]) from rfl] at h
    injection h with h'
    exact PyVal.noConfusion h'

/-! ## Claim C7 -/

/-- Claim C7: `probe_and_store_model_behavior` never raises — it is modelled
as a total function over every probe outcome — and on every failure path
(non-OpenAI provider, missing or empty `base_url`, non-200 status,
transport failure, or any exception inside the `try`, including a
malformed JSON body) it stores `capability_type = "none"` via upsert and
returns a result dictionary; only a successful 200 probe with a parseable
body stores the classification derived from the raw response. -/
theorem C7_probe_never_raises (provider base_url api_key : Option String)
    (model : String) (net : ProbeNet) :
    (probe_and_store_model_behavior provider base_url api_key model net).1.capability_type =
      (match probeSuccessBody provider base_url net with
       | some raw => (detect_behavior_from_raw_response raw).1
       | none => "none") ∧
    (probe_and_store_model_behavior provider base_url api_key model net).2.capability_type =
      (probe_and_store_model_behavior provider base_url api_key model net).1.capability_type ∧
    (probe_and_store_model_behavior provider base_url api_key model net).2.probed =
      (probeSuccessBody provider base_url net).isSome := by
  unfold probe_and_store_model_behavior probeSuccessBody
  by_cases h1 : lowerS (provider.getD "") = "ollama"
  · simp [h1, defaultUpsert, defaultResult]
  · by_cases h2 : lowerS (provider.getD "") = "openai"
    · by_cases h3 : hasBaseUrl base_url = true
      · simp only [h1, h2, h3, if_neg, if_pos, not_true, and_true, if_false]
        cases net with
        | exn => simp [defaultUpsert, defaultResult]
        | status code body =>
          by_cases h4 : code = 200
          · subst h4
            cases body with
            | none => simp [defaultUpsert, defaultResult]
            | some raw => simp
          · cases body with
            | none => simp [h4, defaultUpsert, defaultResult]
            | some raw =>
              simp only [if_neg, h4, not_false_iff, if_true, defaultUpsert, defaultResult]
              have : (match ProbeNet.status code (some raw) with
                      | ProbeNet.status 200 (some raw) => some raw
                      | _ => none) = none := by
                rcases Nat.lt_trichotomy code 200 with hlt | heq | hgt
                · rcases code with _ | c <;> simp_all
                · exact absurd heq h4
                · rcases code with _ | c <;> simp_all
              simp [this, h4]
      · have h3' : hasBaseUrl base_url = false := by
          cases hb : hasBaseUrl base_url
          · rfl
          · exact absurd hb h3
        simp [h2, h3', h1, defaultUpsert, defaultResult]
    · simp [h1, h2, defaultUpsert, defaultResult]

/-! ## Claim C3, counterexample -/

/-- Claim C3, counterexample: the passes are not applied in the claim's
order.  On the already-parseable input `{"a":"b\nc"}` (backslash-n escape
sequence) the claimed pipeline — parse, then think-strip, fence, escaping,
braces, bullets — returns the input unchanged, while the source applies
the control-character escaping *before* the first parse attempt (its
comment: "This must be done before any parsing attempts") and returns the
backslash-doubled string. -/
theorem C3_counterexample :
    repairSpecC3 "\x7b\"a\":\"b\\nc\"\x7d".data = "\x7b\"a\":\"b\\nc\"\x7d".data ∧
    repairJsonL "\x7b\"a\":\"b\\nc\"\x7d".data = .ok "\x7b\"a\":\"b\\\\nc\"\x7d".data ∧
    repairJsonL "\x7b\"a\":\"b\\nc\"\x7d".data ≠
      .ok (repairSpecC3 "\x7b\"a\":\"b\\nc\"\x7d".data) := by
  refine ⟨by decide, by decide, by decide⟩

theorem braceCode_eq_braceStages (s : List Char) (h : jsonOkL s = false)
    : braceCode s = braceStages s := by
  unfold braceCode braceStages braceBothStage braceOpenStage braceCloseStage
  by_cases ho : startsDoubleOpen s = true
  · by_cases he : endsDoubleClose s = true
    · simp [ho, he, h]
    · have he' : endsDoubleClose s = false := by
        cases hv : endsDoubleClose s
        · rfl
        · exact absurd hv he
      simp [ho, he', h]
  · have ho' : startsDoubleOpen s = false := by
      cases hv : startsDoubleOpen s
      · rfl
      · exact absurd hv ho
    by_cases he : endsDoubleClose s = true
    · simp [ho', he, h]
    · have he' : endsDoubleClose s = false := by
        cases hv : endsDoubleClose s
        · rfl
        · exact absurd hv he
      simp [ho', he', h]

/-- Claim C3, amended: `repair_json` applies, in order: (0) control-character
escaping (before the first parse attempt, per the source's comment), then
after a failed parse (1) think-tag stripping, (2) code-fence extraction, and
(3) the three doubled-brace attempts (symmetric, open-only, close-only),
re-attempting a parse after each; think and fence rewrites are kept while a
brace rewrite is reverted when its output does not parse; and when nothing
has parsed the bullet-normalization step raises a regex error (its guard's
character class is unterminated) instead of returning a string. -/
theorem C3_amended_actual_order : ∀ l, repairJsonL l = repairActualOrder l := by
  intro l
  show (if l.isEmpty then Except.ok [] else
      (let t1 := escapeStage l
       if jsonOkL t1 then .ok t1 else
       let t2 := thinkStage t1
       if jsonOkL t2 then .ok t2 else
       let t3 := fenceStage t2
       if jsonOkL t3 then .ok t3 else braceCode t3)) =
    (if l.isEmpty then Except.ok [] else
      (let t1 := escapeStage l
       if jsonOkL t1 then .ok t1 else
       let t2 := thinkStage t1
       if jsonOkL t2 then .ok t2 else
       let t3 := fenceStage t2
       if jsonOkL t3 then .ok t3 else braceStages t3))
  by_cases h0 : l.isEmpty = true
  · rw [if_pos h0, if_pos h0]
  · rw [if_neg h0, if_neg h0]
    simp only []
    by_cases h1 : jsonOkL (escapeStage l) = true
    · simp only [h1, if_true]
    · simp only [h1, if_false, Bool.false_eq_true]
      by_cases h2 : jsonOkL (thinkStage (escapeStage l)) = true
      · simp only [h2, if_true]
      · simp only [h2, if_false, Bool.false_eq_true]
        by_cases h3 : jsonOkL (fenceStage (thinkStage (escapeStage l))) = true
        · simp only [h3, if_true]
        · simp only [h3, if_false, Bool.false_eq_true]
          exact braceCode_eq_braceStages _ (by rw [Bool.not_eq_true] at h3; exact h3)

/-! ## ASCII preservation of the repair pipeline -/

theorem allAscii_of_mem {l' l : List Char} (hsub : ∀ c ∈ l', c ∈ l)
    (ha : allAscii l = true) : allAscii l' = true := by
  simp only [allAscii, List.all_eq_true] at *
  exact fun c hc => ha c (hsub c hc)

theorem mem_dropWhile {p : Char → Bool} {l : List Char} :
    ∀ c ∈ l.dropWhile p, c ∈ l := by
  induction l with
  | nil => simp
  | cons x r ih =>
    intro c hc
    rw [List.dropWhile] at hc
    cases hp : p x with
    | true => rw [hp] at hc; exact List.mem_cons_of_mem x (ih c hc)
    | false => rw [hp] at hc; exact hc

theorem mem_lstripPy {l : List Char} : ∀ c ∈ lstripPy l, c ∈ l := mem_dropWhile

theorem mem_rstripPy {l : List Char} : ∀ c ∈ rstripPy l, c ∈ l := by
  intro c hc
  unfold rstripPy at hc
  rw [List.mem_reverse] at hc
  exact (List.mem_reverse).mp (mem_dropWhile c hc)

theorem mem_pyStrip {l : List Char} : ∀ c ∈ pyStrip l, c ∈ l :=
  fun c hc => mem_lstripPy c (mem_rstripPy c hc)

theorem mem_stripThinkGo (f : Nat) : ∀ l : List Char, ∀ c ∈ stripThinkGo f l, c ∈ l := by
  induction f with
  | zero => intro l c hc; exact hc
  | succ f ih =>
    intro l c hc
    match l with
    | [] => exact hc
    | x :: r =>
      rw [stripThinkGo] at hc
      cases hm : thinkMatchLen (x :: r) with
      | some n =>
        rw [hm] at hc
        exact List.drop_subset n (x :: r) (ih _ c hc)
      | none =>
        rw [hm] at hc
        rcases List.mem_cons.mp hc with h | h
        · simp [h]
        · exact List.mem_cons_of_mem x (ih r c h)

theorem mem_stripThink {l : List Char} : ∀ c ∈ stripThink l, c ∈ l :=
  mem_stripThinkGo (l.length + 1) l

theorem mem_fenceCloseScan (f : Nat) : ∀ l body : List Char,
    fenceCloseScan f l = some body → ∀ c ∈ body, c ∈ l := by
  induction f with
  | zero => intro l body h; simp [fenceCloseScan] at h
  | succ f ih =>
    intro l body h
    match l with
    | [] => simp [fenceCloseScan] at h
    | x :: r =>
      rw [fenceCloseScan] at h
      by_cases hx : (x = '\n' && startsL [btick, btick, btick] r) = true
      · rw [if_pos hx] at h
        cases h.symm
        simp
      · rw [if_neg hx] at h
        cases hs : fenceCloseScan f r with
        | none => rw [hs] at h; simp at h
        | some body' =>
          rw [hs] at h
          simp only [Option.map_some'] at h
          cases h.symm
          intro c hc
          rcases List.mem_cons.mp hc with h' | h'
          · simp [h']
          · exact List.mem_cons_of_mem x (ih r body' hs c h')

theorem mem_fenceTryAt {l body : List Char} (h : fenceTryAt l = some body) :
    ∀ c ∈ body, c ∈ l := by
  unfold fenceTryAt at h
  by_cases hs : startsL [btick, btick, btick] l = true
  · rw [if_pos hs] at h
    simp only [] at h
    cases hn : idxOfNl (l.drop 3) with
    | none => rw [hn] at h; simp at h
    | some p =>
      rw [hn] at h
      intro c hc
      have h1 := mem_fenceCloseScan _ _ _ h c hc
      exact List.drop_subset 3 l (List.drop_subset (p + 1) _ h1)
  · rw [if_neg hs] at h; simp at h

theorem fenceSearchGo_succ (f : Nat) (l : List Char) :
    fenceSearchGo (f + 1) l =
      (match fenceTryAt l with
       | some b => some b
       | none =>
         match l with
         | [] => none
         | _ :: r => fenceSearchGo f r) := rfl

theorem mem_fenceSearchGo (f : Nat) : ∀ l body : List Char,
    fenceSearchGo f l = some body → ∀ c ∈ body, c ∈ l := by
  induction f with
  | zero => intro l body h; simp [fenceSearchGo] at h
  | succ f ih =>
    intro l body h
    rw [fenceSearchGo_succ] at h
    cases ht : fenceTryAt l with
    | some b => rw [ht] at h; cases h.symm; exact mem_fenceTryAt ht
    | none =>
      rw [ht] at h
      match l with
      | [] => simp at h
      | x :: r =>
        intro c hc
        exact List.mem_cons_of_mem x (ih r body h c hc)

theorem mem_fenceSearch {l body : List Char} (h : fenceSearch l = some body) :
    ∀ c ∈ body, c ∈ l :=
  mem_fenceSearchGo (l.length + 1) l body h

theorem mem_dropOpenBraceWs {l : List Char} : ∀ c ∈ dropOpenBraceWs l, c ∈ l := by
  intro c hc
  unfold dropOpenBraceWs at hc
  cases hs : lstripPy l with
  | nil => rw [hs] at hc; exact hc
  | cons x r =>
    rw [hs] at hc
    have hc' : c ∈ (if x = lbrace then r else l) := hc
    by_cases hx : x = lbrace
    · rw [if_pos hx] at hc'
      have : c ∈ lstripPy l := by rw [hs]; exact List.mem_cons_of_mem x hc'
      exact mem_lstripPy c this
    · rw [if_neg hx] at hc'; exact hc'

theorem mem_dropLastBraceWs {l : List Char} : ∀ c ∈ dropLastBraceWs l, c ∈ l := by
  intro c hc
  unfold dropLastBraceWs at hc
  cases hs : l.reverse.dropWhile isPyWsC with
  | nil => rw [hs] at hc; exact hc
  | cons x r =>
    rw [hs] at hc
    have hc' : c ∈ (if x = rbrace then r.reverse else l) := hc
    by_cases hx : x = rbrace
    · rw [if_pos hx] at hc'
      rw [List.mem_reverse] at hc'
      have : c ∈ l.reverse.dropWhile isPyWsC := by
        rw [hs]; exact List.mem_cons_of_mem x hc'
      exact (List.mem_reverse).mp (mem_dropWhile c this)
    · rw [if_neg hx] at hc'; exact hc'

theorem escChar_ascii {c : Char} (h : c.toNat < 128) : allAscii (escChar c) = true := by
  unfold escChar
  by_cases h1 : c = '\\'
  · rw [if_pos h1]; decide
  · rw [if_neg h1]
    by_cases h2 : c = '\n'
    · rw [if_pos h2]; decide
    · rw [if_neg h2]
      by_cases h3 : c = '\r'
      · rw [if_pos h3]; decide
      · rw [if_neg h3]
        by_cases h4 : c = '\t'
        · rw [if_pos h4]; decide
        · rw [if_neg h4]
          simp [allAscii, h]

theorem escContent_ascii {l : List Char} (h : allAscii l = true) :
    allAscii (escContent l) = true := by
  induction l with
  | nil => decide
  | cons c r ih =>
    rw [escContent, allAscii, List.all_append]
    simp only [allAscii, List.all_cons, Bool.and_eq_true] at h
    rw [Bool.and_eq_true]
    exact ⟨escChar_ascii (of_decide_eq_true h.1), ih h.2⟩

theorem escapeGo_ascii (f : Nat) : ∀ l : List Char, allAscii l = true →
    allAscii (escapeGo f l) = true := by
  induction f with
  | zero => intro l h; exact h
  | succ f ih =>
    intro l h
    match l with
    | [] => exact h
    | c :: r =>
      simp only [escapeGo]
      have hc : c.toNat < 128 := by
        simp only [allAscii, List.all_cons, Bool.and_eq_true, decide_eq_true_eq] at h
        exact h.1
      have hr : allAscii r = true := by
        simp only [allAscii, List.all_cons, Bool.and_eq_true] at h
        exact h.2
      by_cases hq : c = '"'
      · rw [if_pos hq]
        cases hf : findClose r with
        | none => exact h
        | some p =>
          obtain ⟨p1, p2⟩ := p
          have hdec := findClose_decomp r p1 p2 hf
          have ha1 : allAscii p1 = true := by
            refine allAscii_of_mem (fun d hd => ?_) hr
            rw [hdec]; exact List.mem_append_left _ hd
          have ha2 : allAscii p2 = true := by
            refine allAscii_of_mem (fun d hd => ?_) hr
            rw [hdec]; exact List.mem_append_right _ (by simp [hd])
          show allAscii ('"' :: (escContent p1 ++ '"' :: escapeGo f p2)) = true
          simp only [allAscii, List.all_cons, List.all_append, Bool.and_eq_true]
          refine ⟨by decide, ?_, by decide, ?_⟩
          · exact escContent_ascii ha1
          · exact ih p2 ha2
      · rw [if_neg hq]
        simp only [allAscii, List.all_cons, Bool.and_eq_true]
        exact ⟨by simp [hc], ih r hr⟩

theorem escape_control_chars_ascii {l : List Char} (h : allAscii l = true) :
    allAscii (escape_control_chars l) = true :=
  escapeGo_ascii (l.length + 1) l h

theorem pyStrip_ascii {l : List Char} (h : allAscii l = true) :
    allAscii (pyStrip l) = true :=
  allAscii_of_mem mem_pyStrip h

/-- All `.ok` outputs of `repairJsonL` are drawn from the input by the
pipeline's stages, each of which preserves ASCII-ness. -/
theorem repairJsonL_ascii {l out : List Char} (ha : allAscii l = true)
    (h : repairJsonL l = .ok out) : allAscii out = true := by
  unfold repairJsonL at h
  by_cases h0 : l.isEmpty
  · rw [if_pos h0] at h
    cases h.symm
    decide
  · rw [if_neg h0] at h
    simp only at h
    have ha2 : allAscii (escape_control_chars (pyStrip l)) = true :=
      escape_control_chars_ascii (pyStrip_ascii ha)
    by_cases hp2 : jsonOkL (escape_control_chars (pyStrip l)) = true
    · rw [if_pos hp2] at h
      cases h.symm
      exact ha2
    · rw [if_neg hp2] at h
      have ha3 : allAscii (if hasSubL thinkPat (lowerL (escape_control_chars (pyStrip l)))
          then pyStrip (stripThink (escape_control_chars (pyStrip l)))
          else escape_control_chars (pyStrip l)) = true := by
        by_cases hg : hasSubL thinkPat (lowerL (escape_control_chars (pyStrip l))) = true
        · rw [if_pos hg]
          exact allAscii_of_mem (fun c hc => mem_stripThink c (mem_pyStrip c hc)) ha2
        · rw [if_neg hg]; exact ha2
      set s3 := if hasSubL thinkPat (lowerL (escape_control_chars (pyStrip l)))
          then pyStrip (stripThink (escape_control_chars (pyStrip l)))
          else escape_control_chars (pyStrip l) with hs3
      by_cases hp3 : jsonOkL s3 = true
      · rw [if_pos hp3] at h
        obtain rfl : s3 = out := Except.ok.inj h
        exact ha3
      · rw [if_neg hp3] at h
        have ha4 : allAscii (match fenceSearch s3 with
            | some body => pyStrip body
            | none => s3) = true := by
          cases hf : fenceSearch s3 with
          | some body =>
            exact allAscii_of_mem (fun c hc => mem_fenceSearch hf c (mem_pyStrip c hc)) ha3
          | none => exact ha3
        set s4 := match fenceSearch s3 with
          | some body => pyStrip body
          | none => s3 with hs4
        by_cases hp4 : jsonOkL s4 = true
        · rw [if_pos hp4] at h
          obtain rfl : s4 = out := Except.ok.inj h
          exact ha4
        · rw [if_neg hp4] at h
          have haBoth : allAscii (dropLastBraceWs (dropOpenBraceWs s4)) = true :=
            allAscii_of_mem
              (fun c hc => mem_dropOpenBraceWs c (mem_dropLastBraceWs c hc)) ha4
          have haOpen : allAscii (dropOpenBraceWs s4) = true :=
            allAscii_of_mem mem_dropOpenBraceWs ha4
          have haClose : allAscii (dropLastBraceWs s4) = true :=
            allAscii_of_mem mem_dropLastBraceWs ha4
          by_cases hb1 : (startsDoubleOpen s4 && endsDoubleClose s4 &&
              jsonOkL (dropLastBraceWs (dropOpenBraceWs s4))) = true
          · rw [if_pos hb1] at h
            cases h.symm
            exact haBoth
          · rw [if_neg hb1] at h
            by_cases hb2 : (startsDoubleOpen s4 && jsonOkL (dropOpenBraceWs s4)) = true
            · rw [if_pos hb2] at h
              cases h.symm
              exact haOpen
            · rw [if_neg hb2] at h
              by_cases hb3 : (endsDoubleClose s4 && jsonOkL (dropLastBraceWs s4)) = true
              · rw [if_pos hb3] at h
                cases h.symm
                exact haClose
              · rw [if_neg hb3] at h
                simp at h

theorem unidecodeChar_ascii (c : Char) : allAscii (unidecodeChar c) = true := by
  unfold unidecodeChar
  by_cases h1 : c.toNat < 128
  · rw [if_pos h1]; simp [allAscii, h1]
  · rw [if_neg h1]
    by_cases h2 : (c = Char.ofNat 0xE9 || c = Char.ofNat 0xE8) = true
    · rw [if_pos h2]; decide
    · rw [if_neg h2]
      by_cases h3 : c = Char.ofNat 0x2019
      · rw [if_pos h3]; decide
      · rw [if_neg h3]
        by_cases h4 : c = Char.ofNat 0x2026
        · rw [if_pos h4]; decide
        · rw [if_neg h4]; decide

theorem unidecodeL_ascii (l : List Char) : allAscii (unidecodeL l) = true := by
  induction l with
  | nil => decide
  | cons c r ih =>
    rw [unidecodeL, allAscii, List.all_append]
    rw [allAscii] at ih
    simp only [Bool.and_eq_true]
    exact ⟨unidecodeChar_ascii c, ih⟩

/-! ## Claim C10 -/

/-- Claim C10: every string returned by `chat_with_structured_output` on the
non-local path is pure ASCII — the response content has em and en dashes
replaced by `-` and is transliterated with `unidecode` (whose contract is
ASCII output) before JSON repair, and every repair stage preserves
ASCII-ness, so non-ASCII model output is never returned verbatim. -/
theorem C10_ascii_output (oracle : ChatCall → ChatRespMsg) (model : String)
    (messages : List ChatMsg) (schema : PyVal)
    (options : Option (List (String × PyVal))) (out : String)
    (h : (chat_with_structured_output oracle model messages schema options).2 = .ok out) :
    allAscii out.data = true := by
  simp only [chat_with_structured_output] at h
  cases hr : repairJsonL (unidecodeL (dashReplace
      (oracle { model := model, messages := messages, format := some schema,
                options := options }).content.data)) with
  | error e => rw [hr] at h; simp [Except.map] at h
  | ok res =>
    rw [hr] at h
    simp only [Except.map] at h
    have hout : String.mk res = out := Except.ok.inj h
    have : allAscii res = true := repairJsonL_ascii (unidecodeL_ascii _) hr
    rw [← hout]
    exact this

/-- Witness for C10 at a concrete oracle returning `{}`. -/
theorem C10_ascii_witness :
    ((chat_with_structured_output (fun _ => ⟨"\x7b\x7d"⟩) "m" [⟨"user", "hi"⟩]
        (.dict [("type", .str "object")]) none).2 = .ok "\x7b\x7d") ∧
    allAscii ("\x7b\x7d" : String).data = true :=
  ⟨by decide, C10_ascii_output (fun _ => ⟨"\x7b\x7d"⟩) "m" [⟨"user", "hi"⟩]
    (.dict [("type", .str "object")]) none "\x7b\x7d" (by decide)⟩


/-! ## Evaluation checks of the embedding on concrete inputs
(cross-checked against the behaviour of the source functions) -/

example : jsonOk "\x7b\"a\":\"b\\nc\"\x7d" = true := by decide

example : jsonOk "\x7b\"a\":\"b\\\\nc\"\x7d" = true := by decide

example : jsonOk " 1 " = true := by decide

example : jsonOk "1e" = false := by decide

example : jsonOk "NaN" = true := by decide

example : jsonOk "-Infinity" = true := by decide

example : jsonOk "\x7b\"a\":1,\x7d" = false := by decide

example : jsonOk "\x7b\x7d" = true := by decide

example : jsonOk "\x7b \x7d" = true := by decide

example : jsonOk "[]" = true := by decide

example : jsonOk "[1, 2.5, -3e2]" = true := by decide

example : jsonOk "01" = false := by decide

example : jsonOk "1." = false := by decide

example : jsonOk "\"a\nb\"" = false := by decide

example : jsonOk "" = false := by decide

example : jsonOk "not json" = false := by decide

example : escape_control_chars "\x7b\"a\":\"b\nc\"\x7d".data =
    "\x7b\"a\":\"b\\nc\"\x7d".data := by decide

example : escape_control_chars "\x7b\"a\":\"b\\nc\"\x7d".data =
    "\x7b\"a\":\"b\\\\nc\"\x7d".data := by decide

example : escape_control_chars "\"unclosed".data = "\"unclosed".data := by decide

example : stripThink "<think>notes</think>x".data = "x".data := by decide

example : stripThink "<thinking>x</think>".data = "<thinking>x</think>".data := by decide

example : stripThink "<thi<think>b</think>nk>a</think>".data =
    "<think>a</think>".data := by decide

example : stripThink "<THINK foo>abc\ndef</THINK>rest".data = "rest".data := by decide

example : repair_json "" = .ok "" := by decide

example : repair_json "\x7b\"a\":\"b\\nc\"\x7d" = .ok "\x7b\"a\":\"b\\\\nc\"\x7d" := by
  decide

example : repair_json "<think>internal notes</think>\x7b\"a\": 1\x7d" =
    .ok "\x7b\"a\": 1\x7d" := by decide

example : repair_json "\x7b \x7b\"a\":1\x7d \x7d" = .ok " \x7b\"a\":1\x7d " := by decide

example : repair_json "not json" = .error .bulletRegexUnterminated := by decide

example : repair_json "\x7b\"a\": 1\x7d" = .ok "\x7b\"a\": 1\x7d" := by decide

example : repair_json "   " = .error .bulletRegexUnterminated := by decide

example : repair_json "\x7b\x7b\"a\":1\x7d\x7d" = .ok "\x7b\"a\":1\x7d" := by decide

example : repair_json "\x7b\"a\":1\x7d\x7d" = .ok "\x7b\"a\":1\x7d" := by decide

example : repair_json "\x7b\x7b\"a\":1\x7d" = .ok "\x7b\"a\":1\x7d" := by decide

example : repair_json "\x60\x60\x60json\n\x7b\"a\":1\x7d\n\x60\x60\x60" =
    .ok "\x7b\"a\":1\x7d" := by decide

example : repair_json "<THINK>x</think>\x7b\"b\":2\x7d" = .ok "\x7b\"b\":2\x7d" := by
  decide

example : repair_json "\x7b\"x\":\"y\tz\"\x7d" = .ok "\x7b\"x\":\"y\\tz\"\x7d" := by
  decide

example : (response_generator c2Chunks).map (·.content) =
    ["<think>", "a", "", "b", "", "</think>\n\n", "c"] := by decide

example : findTagMatches "<think>x</think>the answer".data = ["think".data] := by decide

example : findTagMatches "< THINKING >a</thinking>".data = ["thinking".data] := by decide

example : findTagMatches "<think>x</thinking>".data = [] := by decide

example : findTagMatches "no tags here".data = [] := by decide

example : detect_behavior_from_raw_response
    { choices := [{ message := some { reasoning_content := some "because X",
                                      content := some "hi" } }] } =
    ("field", some "reasoning_content", none) := by decide

example : detect_behavior_from_raw_response
    { choices := [{ message := some { content := some "<think>x</think>the answer" } }] } =
    ("tags", none, some ["think"]) := by decide

example : detect_behavior_from_raw_response
    { choices := [{ message := some { content := some "plain" } }] } =
    ("none", none, none) := by decide

example : detect_behavior_from_raw_response { choices := [] } =
    ("none", none, none) := by decide

example : bulletSub1 "[- item1, - item2]".data = "[\"item1\", \"item2\"]".data := by decide

example : bulletSub1 "[- \"q\", + x]".data = "[- \"q\", \"x\"]".data := by decide

example : bulletSub1 "[ - x ]".data = "[ \"x\" ]".data := by decide

example : bulletSub1 "[-b\n]".data = "[\"b\"\n]".data := by decide

example : bulletSub2 "[- \"q\", + x]".data = "[\"q\", + x]".data := by decide

example : bulletGuard1 "[- item1]".data = true := by decide

example : bulletGuard1 "[\"a\"]".data = false := by decide

example : bulletGuard2 "- \"x\"".data = true := by decide

end Phlox
